import Mathlib

/-!
Verification development for a small Redis-like key-value server
(RESP-style wire codec, command model, storage engine with an
append-only durability log).  Each definition is a shallow embedding of
the corresponding Rust function; timestamps and durations are modelled
as natural numbers of milliseconds, byte buffers as `List Nat`.
-/

set_option maxHeartbeats 1000000

namespace RedisLike

/-- Entry stored in the table: a value plus an optional absolute expiry
timestamp (embeds `ValueEntry` from `persistence/mod.rs`). -/
structure ValueEntry where
  value : String
  expires_at : Option Nat
deriving DecidableEq, Repr

/-- Durability-log record (embeds the `Operation` enum from
`persistence/mod.rs`): a `Set` with optional absolute expiry, or a
`Delete`. -/
inductive Operation where
  | set (key value : String) (expires_at : Option Nat)
  | delete (key : String)
deriving DecidableEq, Repr

/-- The concurrent table (`DashMap<String, ValueEntry>`) modelled as a
total function from keys to optional entries. -/
def Table : Type := String → Option ValueEntry

def emptyTable : Table := fun _ => none

def tableInsert (t : Table) (k : String) (e : ValueEntry) : Table :=
  fun k2 => if k2 = k then some e else t k2

def tableRemove (t : Table) (k : String) : Table :=
  fun k2 => if k2 = k then none else t k2

/-- The expiry test used by `load_persistent_data`
(`expires_at.map_or(true, |expires| SystemTime::now() <= expires)`):
an entry is still live when it has no expiry or `now <= expires_at`. -/
def notExpired (now : Nat) : Option Nat → Bool
  | none => true
  | some t => decide (now ≤ t)

/-! ### Model of the `bincode` codec

`bincode` is an external crate; the repository only relies on
`deserialize (serialize op) = Ok op` and on the serialized form being a
flat byte sequence.  We model it by a concrete executable, injective,
self-delimiting encoding of `Operation` into `List Nat`. -/

/-- Model codec: encode a natural number self-delimitingly. -/
def encNat (n : Nat) : List Nat := List.replicate n 0 ++ [1]

/-- Model codec: decode a natural number, returning the remainder. -/
def decNat : List Nat → Option (Nat × List Nat)
  | [] => none
  | 0 :: rest =>
      match decNat rest with
      | some (n, r) => some (n + 1, r)
      | none => none
  | 1 :: rest => some (0, rest)
  | _ => none

/-- Model codec: encode a string (length, then character codes). -/
def encS (s : String) : List Nat := encNat s.data.length ++ s.data.map Char.toNat

/-- Model codec: decode a string, returning the remainder. -/
def decS (l : List Nat) : Option (String × List Nat) :=
  match decNat l with
  | some (n, r) =>
      if n ≤ r.length then
        some (String.mk ((r.take n).map Char.ofNat), r.drop n)
      else none
  | none => none

/-- Model codec: encode an optional timestamp. -/
def encOptNat : Option Nat → List Nat
  | none => [0]
  | some t => 1 :: encNat t

/-- Model codec: decode an optional timestamp, returning the remainder. -/
def decOptNat : List Nat → Option (Option Nat × List Nat)
  | 0 :: rest => some (none, rest)
  | 1 :: rest =>
      match decNat rest with
      | some (t, r) => some (some t, r)
      | none => none
  | _ => none

/-- Model of `bincode::serialize` applied to an `Operation`. -/
def serializeOp : Operation → List Nat
  | .set k v e => 0 :: (encS k ++ encS v ++ encOptNat e)
  | .delete k => 1 :: encS k

/-- Model of `bincode::deserialize` applied to a buffer holding one
`Operation` (trailing bytes are ignored, as the callers always pass a
buffer of exactly the recorded length). -/
def deserializeOp (l : List Nat) : Option Operation :=
  match l with
  | 0 :: rest =>
      match decS rest with
      | some (k, r1) =>
          match decS r1 with
          | some (v, r2) =>
              match decOptNat r2 with
              | some (e, _) => some (.set k v e)
              | none => none
          | none => none
      | none => none
  | 1 :: rest =>
      match decS rest with
      | some (k, _) => some (.delete k)
      | none => none
  | _ => none

theorem decNat_encNat (n : Nat) (r : List Nat) :
    decNat (encNat n ++ r) = some (n, r) := by
  induction n with
  | zero => simp [encNat, decNat]
  | succ m ih =>
      show decNat (0 :: (encNat m ++ r)) = some (m + 1, r)
      simp [decNat, ih]

theorem map_toNat_ofNat_map (cs : List Char) :
    (cs.map Char.toNat).map Char.ofNat = cs := by
  induction cs with
  | nil => rfl
  | cons c cs ih => simp [ih]

theorem decS_encS (s : String) (r : List Nat) :
    decS (encS s ++ r) = some (s, r) := by
  have htake : (s.data.map Char.toNat ++ r).take s.data.length
      = s.data.map Char.toNat := by
    simp [List.take_left]
  have hdrop : (s.data.map Char.toNat ++ r).drop s.data.length = r := by
    simp [List.drop_left]
  have hlen : s.data.length ≤ (s.data.map Char.toNat ++ r).length := by
    simp
  simp only [decS, encS, List.append_assoc, decNat_encNat, hlen, if_true,
    if_pos hlen, htake, hdrop, map_toNat_ofNat_map]

theorem decOptNat_encOptNat (e : Option Nat) (r : List Nat) :
    decOptNat (encOptNat e ++ r) = some (e, r) := by
  cases e with
  | none => rfl
  | some t => simp [encOptNat, decOptNat, decNat_encNat]

/-- The model codec round-trips: deserializing a serialized operation
(with any trailing bytes) recovers the operation. -/
theorem deserializeOp_serializeOp (op : Operation) (r : List Nat) :
    deserializeOp (serializeOp op ++ r) = some op := by
  cases op with
  | set k v e =>
      simp only [serializeOp, deserializeOp, List.cons_append, List.append_assoc,
        decS_encS, decOptNat_encOptNat]
  | delete k =>
      simp only [serializeOp, deserializeOp, List.cons_append, decS_encS]

theorem deserializeOp_serializeOp_nil (op : Operation) :
    deserializeOp (serializeOp op) = some op := by
  simpa using deserializeOp_serializeOp op []

/-! ### Append-only file (AOF) manager, from `persistence/aof.rs` -/

/-- Four-byte little-endian encoding of a length, embedding
`(serialized.len() as u32).to_le_bytes()` (the `as u32` cast keeps only
the low 32 bits, which the per-byte `% 256` below reproduces). -/
def u32le (n : Nat) : List Nat :=
  [n % 256, n / 256 % 256, n / 65536 % 256, n / 16777216 % 256]

/-- Decode 4 little-endian bytes as `u32::from_le_bytes` does, returning
the remainder of the buffer; `none` when fewer than 4 bytes remain
(`read_exact` on the length prefix fails). -/
def decU32le : List Nat → Option (Nat × List Nat)
  | a :: b :: c :: d :: rest => some (a + 256 * b + 65536 * c + 16777216 * d, rest)
  | _ => none

/-- State of the `AofManager`'s buffered writer: the byte stream written
so far (buffer plus file, as one stream), the length of the prefix that
has been flushed and fsynced, and the eager-sync counter. -/
structure AofState where
  buf : List Nat
  syncedLen : Nat
  syncCounter : Nat
deriving DecidableEq, Repr

/-- Initial state of `AofManager::new`: empty stream, `sync_counter = 0`. -/
def aofInit : AofState := ⟨[], 0, 0⟩

/-- Outcome of the underlying file I/O during an append: success, or an
injected write failure (with whatever junk bytes the failed `write_all`
calls left in the buffer). -/
inductive WriteOutcome where
  | ok
  | ioErr (msg : String) (junk : List Nat)

/-- The full byte record `append_operation` writes for one operation:
4-byte little-endian length prefix followed by the serialized payload. -/
def encodeRecord (op : Operation) : List Nat :=
  u32le (serializeOp op).length ++ serializeOp op

/-- Embeds `AofManager::append_operation`: serialize, write the 4-byte
little-endian length then the payload under the exclusive writer lock,
increment the sync counter, and on reaching 1000 flush + fsync and reset
the counter to zero.  A failing `write_all` propagates the error before
the counter is touched. -/
def appendOperation (st : AofState) (op : Operation) (io : WriteOutcome) :
    Except String Unit × AofState :=
  match io with
  | .ioErr msg junk => (.error msg, { st with buf := st.buf ++ junk })
  | .ok =>
      let buf2 := st.buf ++ encodeRecord op
      let c := st.syncCounter + 1
      if 1000 ≤ c then
        (.ok (), ⟨buf2, buf2.length, 0⟩)
      else
        (.ok (), ⟨buf2, st.syncedLen, c⟩)

/-- Embeds the loop of `AofManager::load_operations`: read a 4-byte
length (stopping successfully when fewer than 4 bytes remain), then
`read_exact` that many payload bytes (an error when the buffer is
short), deserialize (an error on failure), and repeat. -/
def loadOps (l : List Nat) (acc : List Operation) :
    Except String (List Operation) :=
  match h : decU32le l with
  | none => .ok acc.reverse
  | some (len, rest) =>
      if hr : rest.length < len then .error "failed to fill whole buffer"
      else
        match deserializeOp (rest.take len) with
        | some op => loadOps (rest.drop len) (op :: acc)
        | none => .error "deserialize error"
termination_by l.length
decreasing_by
  have h4 : rest.length + 4 = l.length := by
    cases l with
    | nil => simp [decU32le] at h
    | cons a t1 =>
      cases t1 with
      | nil => simp [decU32le] at h
      | cons b t2 =>
        cases t2 with
        | nil => simp [decU32le] at h
        | cons c t3 =>
          cases t3 with
          | nil => simp [decU32le] at h
          | cons d t4 =>
            simp [decU32le] at h
            simp [← h.2]
  simp only [List.length_drop]
  omega

/-- Embeds `AofManager::load_operations` on the full log contents. -/
def loadOperations (l : List Nat) : Except String (List Operation) :=
  loadOps l []

/-- The byte stream that appending a sequence of operations produces. -/
def encodeLog (ops : List Operation) : List Nat :=
  (ops.map encodeRecord).flatten

/-! ### Storage engine, from `persistence/storage.rs` -/

/-- Combined state touched by `Storage::set`/`Storage::get`: the table
and the AOF writer. -/
structure StorageState where
  table : Table
  aof : AofState

/-- Embeds `Storage::set` at instant `now` (milliseconds): compute
`expires_at = expiry.map(|d| now + d)`, append the `Set` operation to
the AOF (propagating any I/O error before the table is touched), then
insert into the table. -/
def storageSet (st : StorageState) (key value : String) (expiry : Option Nat)
    (now : Nat) (io : WriteOutcome) : Except String Unit × StorageState :=
  let expires_at := expiry.map (fun d => now + d)
  let op : Operation := .set key value expires_at
  match appendOperation st.aof op io with
  | (.error msg, aof2) => (.error msg, { st with aof := aof2 })
  | (.ok _, aof2) =>
      (.ok (), { table := tableInsert st.table key ⟨value, expires_at⟩, aof := aof2 })

/-- Embeds `Storage::get` at instant `now`: look the key up; if the
entry carries an expiry and `now > expires_at`, remove it and return
absent; otherwise return the value.  (The Rust signature is
`io::Result`, but the body never produces an error.) -/
def storageGet (st : StorageState) (key : String) (now : Nat) :
    Except String (Option String) × StorageState :=
  match st.table key with
  | some entry =>
      match entry.expires_at with
      | some t =>
          if now > t then
            (.ok none, { st with table := tableRemove st.table key })
          else
            (.ok (some entry.value), st)
      | none => (.ok (some entry.value), st)
  | none => (.ok none, st)

/-! ### Startup replay, from `Storage::load_persistent_data`
(restricted to the AOF pass over an empty table, i.e. a first run with
no RDB snapshot).  We take a single replay instant `now`; the code calls
`SystemTime::now()` once per record during a fast in-memory loop. -/

/-- One replay step: a `Set` whose expiry has not elapsed is inserted;
a `Set` already expired at replay time is skipped; a `Delete` removes. -/
def replayStep (now : Nat) (t : Table) : Operation → Table
  | .set k v e => if notExpired now e then tableInsert t k ⟨v, e⟩ else t
  | .delete k => tableRemove t k

/-- Replay of an operation sequence against an empty table. -/
def replayOps (now : Nat) (ops : List Operation) : Table :=
  ops.foldl (replayStep now) emptyTable

/-- Live application of one operation, as executing the operations
against the running store would have done: `Storage::set` inserts
unconditionally, a `Delete` removes. -/
def liveStep (t : Table) : Operation → Table
  | .set k v e => tableInsert t k ⟨v, e⟩
  | .delete k => tableRemove t k

/-- Live application of an operation sequence to an empty table. -/
def liveOps (ops : List Operation) : Table :=
  ops.foldl liveStep emptyTable

/-- Drop from a table every entry whose expiry has elapsed by `now`. -/
def minusExpired (now : Nat) (t : Table) : Table :=
  fun k =>
    match t k with
    | some e => if notExpired now e.expires_at then some e else none
    | none => none

/-! ### RESP wire values and codec, from `resp.rs` -/

/-- The `Resp` enum from `resp.rs`. -/
inductive Resp where
  | simpleString (s : String)
  | error (s : String)
  | bulkString (s : String)
  | array (items : List Resp)
  | null

/-- The crate error enum from `main.rs` (the variants the codec and the
command model produce). -/
inductive Err where
  | protocol (s : String)
  | command (s : String)
deriving DecidableEq, Repr

mutual

/-- Embeds `Resp::into_bytes`, which is total.  Its output is a valid
UTF-8 Rust `String` turned into bytes, so we model it as a Lean
`String`; `utf8ByteSize` models Rust's byte-counting `str::len`. -/
def Resp.intoBytes : Resp → String
  | .simpleString s => "+" ++ s ++ "\r\n"
  | .error s => "-" ++ s ++ "\r\n"
  | .bulkString s => "$" ++ toString s.utf8ByteSize ++ "\r\n" ++ s ++ "\r\n"
  | .array items => "*" ++ toString items.length ++ "\r\n" ++ intoBytesList items
  | .null => "$-1\r\n"

/-- Concatenated encodings of the elements of an array, in order. -/
def intoBytesList : List Resp → String
  | [] => ""
  | r :: rs => r.intoBytes ++ intoBytesList rs

end

/-- Is `b` a UTF-8 continuation byte (`0x80..=0xBF`)? -/
def contByte (b : Nat) : Bool := 128 ≤ b && b ≤ 191

/-- Model of `std::str::from_utf8`: strict UTF-8 decoding of a byte
sequence to characters — rejecting overlong forms, surrogates and code
points above `0x10FFFF` — or `none` on invalid input. -/
def utf8Decode : List Nat → Option (List Char)
  | [] => some []
  | b :: rest =>
      if b < 128 then
        match utf8Decode rest with
        | some cs => some (Char.ofNat b :: cs)
        | none => none
      else if b < 194 then none
      else if b ≤ 223 then
        match rest with
        | b2 :: rest2 =>
            if contByte b2 then
              match utf8Decode rest2 with
              | some cs => some (Char.ofNat ((b - 192) * 64 + (b2 - 128)) :: cs)
              | none => none
            else none
        | [] => none
      else if b ≤ 239 then
        match rest with
        | b2 :: b3 :: rest3 =>
            let lo2 := if b = 224 then 160 else 128
            let hi2 := if b = 237 then 159 else 191
            if lo2 ≤ b2 && b2 ≤ hi2 && contByte b3 then
              match utf8Decode rest3 with
              | some cs =>
                  some (Char.ofNat ((b - 224) * 4096 + (b2 - 128) * 64 + (b3 - 128)) :: cs)
              | none => none
            else none
        | _ => none
      else if b ≤ 244 then
        match rest with
        | b2 :: b3 :: b4 :: rest4 =>
            let lo2 := if b = 240 then 144 else 128
            let hi2 := if b = 244 then 143 else 191
            if lo2 ≤ b2 && b2 ≤ hi2 && contByte b3 && contByte b4 then
              match utf8Decode rest4 with
              | some cs =>
                  some (Char.ofNat ((b - 240) * 262144 + (b2 - 128) * 4096
                    + (b3 - 128) * 64 + (b4 - 128)) :: cs)
              | none => none
            else none
        | _ => none
      else none

/-- Model of `str::split("\r\n")`, producing the first line and the
remaining lines (the full line list is the first component consed onto
the second, so the result is always non-empty, as in Rust). -/
def splitCRLF1 : List Char → List Char × List (List Char)
  | [] => ([], [])
  | '\r' :: '\n' :: rest =>
      let (h, t) := splitCRLF1 rest
      ([], h :: t)
  | c :: rest =>
      let (h, t) := splitCRLF1 rest
      (c :: h, t)

/-- Model of Rust's 64-bit unsigned integer `parse` (used both for the
array count `usize` and the `PX` value `u64`): an optional leading `+`,
then one or more ASCII digits, rejecting anything else and values of
2^64 or more. -/
def parseNat64 (cs : List Char) : Option Nat :=
  let ds := match cs with
    | '+' :: rest => rest
    | _ => cs
  if ds.isEmpty then none
  else if ds.all (fun c => '0' ≤ c && c ≤ '9') then
    let n := ds.foldl (fun a c => a * 10 + (c.toNat - 48)) 0
    if n < 18446744073709551616 then some n else none
  else none

/-- Embeds the element loop of `Resp::parse`: for each of `count`
elements, require a line whose first character is `$` (the declared
bulk length after the `$` is never examined) and take the following
line verbatim as the bulk-string content. -/
def parseElems : Nat → List (List Char) → Except Err (List Resp)
  | 0, _ => .ok []
  | _ + 1, [] => .error (.protocol "Incomplete array")
  | n + 1, line :: rest =>
      match line with
      | '$' :: _ =>
          match rest with
          | [] => .error (.protocol "Incomplete bulk string")
          | content :: rest2 =>
              match parseElems n rest2 with
              | .ok arr => .ok (.bulkString (String.mk content) :: arr)
              | .error e => .error e
      | _ => .error (.protocol "Invalid array element")

/-- Embeds `Resp::parse`: empty input decodes to nothing; a first byte
other than `*` is an unsupported RESP type; otherwise the whole buffer
must be valid UTF-8, is split on CRLF, the array count is parsed from
the first line after the `*`, and `count` elements are read. -/
def respParse (input : List Nat) : Except Err (Option Resp) :=
  match input with
  | [] => .ok none
  | b :: _ =>
      if b = 42 then
        match utf8Decode input with
        | none => .error (.protocol "Invalid UTF-8")
        | some cs =>
            let (line0, rest) := splitCRLF1 cs
            match parseNat64 (line0.drop 1) with
            | none => .error (.protocol "Invalid array length")
            | some count =>
                match parseElems count rest with
                | .ok arr => .ok (some (.array arr))
                | .error e => .error e
      else .error (.protocol "Unsupported RESP type")

/-! ### Command model, from `commands.rs` -/

/-- The `Command` enum; the `expiry` of `Set` is a relative duration in
milliseconds (`Duration::from_millis`), turned into an absolute
`expires_at` by `Storage::set`. -/
inductive Command where
  | ping
  | echo (message : String)
  | set (key value : String) (expiry : Option Nat)
  | get (key : String)
deriving DecidableEq, Repr

/-- ASCII uppercasing of one character. -/
def charToUpper (c : Char) : Char :=
  if 'a' ≤ c && c ≤ 'z' then Char.ofNat (c.toNat - 32) else c

/-- Models Rust's `str::to_uppercase` (they agree on ASCII, which all
command and option words are). -/
def strToUpper (s : String) : String := String.mk (s.data.map charToUpper)

/-- Embeds `Command::from_resp`. -/
def fromResp : Resp → Except Err Command
  | .array items =>
      match items with
      | [] => .error (.command "Empty command")
      | first :: rest =>
          match first with
          | .bulkString cmd =>
              let command := strToUpper cmd
              if command = "PING" then .ok .ping
              else if command = "ECHO" then
                match rest with
                | [.bulkString message] => .ok (.echo message)
                | [_] => .error (.command "Invalid ECHO argument")
                | _ => .error (.command "ECHO requires exactly one argument")
              else if command = "SET" then
                match rest with
                | [.bulkString k, .bulkString v] => .ok (.set k v none)
                | [_, _] => .error (.command "Invalid SET arguments")
                | [.bulkString k, .bulkString v, .bulkString opt, .bulkString px] =>
                    if strToUpper opt = "PX" then
                      match parseNat64 px.data with
                      | some ms => .ok (.set k v (some ms))
                      | none => .error (.command "Invalid PX value")
                    else .error (.command "Invalid SET option")
                | [_, _, _, _] => .error (.command "Invalid SET arguments")
                | _ => .error (.command "Wrong number of SET arguments")
              else if command = "GET" then
                match rest with
                | [.bulkString k] => .ok (.get k)
                | [_] => .error (.command "Invalid GET argument")
                | _ => .error (.command "GET requires exactly one argument")
              else .error (.command ("Unknown command: " ++ command))
          | _ => .error (.command "Invalid command format")
  | _ => .error (.command "Invalid command format")

/-- The match arms of `Command::execute` for the `Set` branch's storage
result. -/
def setReply : Except String Unit → Resp
  | .ok _ => .simpleString "OK"
  | .error _ => .error "ERR failed to set value"

/-- The match arms of `Command::execute` for the `Get` branch's storage
result. -/
def getReply : Except String (Option String) → Resp
  | .ok (some v) => .bulkString v
  | .ok none => .null
  | .error _ => .error "ERR failed to get value"

/-- Embeds `Command::execute` at instant `now` with I/O outcome `io`
for any log append performed. -/
def execute (cmd : Command) (st : StorageState) (now : Nat)
    (io : WriteOutcome) : Resp × StorageState :=
  match cmd with
  | .ping => (.simpleString "PONG", st)
  | .echo message => (.simpleString message, st)
  | .set k v expiry =>
      let (r, st2) := storageSet st k v expiry now io
      (setReply r, st2)
  | .get k =>
      let (r, st2) := storageGet st k now
      (getReply r, st2)

/-! ### Claim theorems -/

/-- Claim C8: `into_bytes` is total (a Lean function on all of `Resp`)
and produces exactly the documented framing: `+s\r\n`, `-s\r\n`,
`$len\r\ns\r\n`, `$-1\r\n`, and `*count\r\n` followed by each element's
encoding in order; in particular `BulkString "world"` encodes to
`$5\r\nworld\r\n`. -/
theorem c8_encode_total_framing :
    (∀ s, (Resp.simpleString s).intoBytes = "+" ++ s ++ "\r\n") ∧
    (∀ s, (Resp.error s).intoBytes = "-" ++ s ++ "\r\n") ∧
    (∀ s, (Resp.bulkString s).intoBytes
        = "$" ++ toString s.utf8ByteSize ++ "\r\n" ++ s ++ "\r\n") ∧
    Resp.null.intoBytes = "$-1\r\n" ∧
    (∀ items, (Resp.array items).intoBytes
        = "*" ++ toString items.length ++ "\r\n" ++ intoBytesList items) ∧
    intoBytesList [] = "" ∧
    (∀ r rs, intoBytesList (r :: rs) = r.intoBytes ++ intoBytesList rs) ∧
    (Resp.bulkString "world").intoBytes = "$5\r\nworld\r\n" :=
  ⟨fun _ => rfl, fun _ => rfl, fun _ => rfl, rfl, fun _ => rfl, rfl,
    fun _ _ => rfl, rfl⟩

/-- Claim C10: a request array whose first element is a bulk string that
uppercases to `PING` parses to `Ping` no matter how many further
arguments follow — extra arguments are ignored, not rejected. -/
theorem c10_ping_ignores_extra_args (p : String) (rest : List Resp)
    (h : strToUpper p = "PING") :
    fromResp (.array (.bulkString p :: rest)) = .ok .ping := by
  simp [fromResp, h]

/-- Claim C10 witness: `PING` in lowercase with two extra arguments. -/
theorem c10_witness :
    strToUpper "ping" = "PING" ∧
    fromResp (.array [.bulkString "ping", .bulkString "extra", .null])
      = .ok .ping :=
  ⟨rfl, c10_ping_ignores_extra_args "ping" [.bulkString "extra", .null] rfl⟩

/-- Claim C1 counterexample: an entry with `expires_at = 5` read at the
exact instant `now = 5` is returned as present and kept in the table,
whereas the claim demands that at `now = expires_at` the entry be
treated as expired (absent and removed). -/
theorem c1_counterexample :
    (storageGet ⟨tableInsert emptyTable "k" ⟨"v", some 5⟩, aofInit⟩ "k" 5).1
      = .ok (some "v") ∧
    (storageGet ⟨tableInsert emptyTable "k" ⟨"v", some 5⟩, aofInit⟩ "k" 5).2.table "k"
      = some ⟨"v", some 5⟩ :=
  ⟨rfl, rfl⟩

/-- Claim C1 amended: a `get` observing an entry with an expiry returns
absent and removes the entry exactly when `now` is strictly after
`expires_at`; at `now = expires_at` (and before) the value is still
returned and the table is unchanged. -/
theorem c1_lazy_expiry_strict (st : StorageState) (k : String)
    (now t : Nat) (v : String) (h : st.table k = some ⟨v, some t⟩) :
    (t < now →
      (storageGet st k now).1 = .ok none ∧
      (storageGet st k now).2.table k = none) ∧
    (now ≤ t →
      (storageGet st k now).1 = .ok (some v) ∧
      (storageGet st k now).2.table = st.table) := by
  constructor
  · intro hlt
    simp [storageGet, h, hlt, tableRemove]
  · intro hle
    simp [storageGet, h, Nat.not_lt.mpr hle]

/-- Claim C1 amended witness: expiry 10, read at 11 (expired: removed)
and at 10 (still present). -/
theorem c1_witness :
    ((⟨tableInsert emptyTable "k" ⟨"v", some 10⟩, aofInit⟩ : StorageState).table "k"
        = some ⟨"v", some 10⟩) ∧
    ((10 < 11 →
      (storageGet ⟨tableInsert emptyTable "k" ⟨"v", some 10⟩, aofInit⟩ "k" 11).1 = .ok none ∧
      (storageGet ⟨tableInsert emptyTable "k" ⟨"v", some 10⟩, aofInit⟩ "k" 11).2.table "k" = none) ∧
     (11 ≤ 10 →
      (storageGet ⟨tableInsert emptyTable "k" ⟨"v", some 10⟩, aofInit⟩ "k" 11).1 = .ok (some "v") ∧
      (storageGet ⟨tableInsert emptyTable "k" ⟨"v", some 10⟩, aofInit⟩ "k" 11).2.table
        = (⟨tableInsert emptyTable "k" ⟨"v", some 10⟩, aofInit⟩ : StorageState).table)) :=
  ⟨rfl, c1_lazy_expiry_strict ⟨tableInsert emptyTable "k" ⟨"v", some 10⟩, aofInit⟩
    "k" 11 10 "v" rfl⟩

/-- Claim C5: `Storage::set` appends the `Set` record to the buffered
log before inserting into the table: on append success the result is
`Ok`, the log gained exactly the record, and the table gained the entry
with `expires_at = now + duration`; if the append fails, `set` returns
the error and the table is completely unchanged. -/
theorem c5_append_before_insert (st : StorageState) (k v : String)
    (expiry : Option Nat) (now : Nat) :
    ((storageSet st k v expiry now .ok).1 = .ok () ∧
     (storageSet st k v expiry now .ok).2.aof.buf
        = st.aof.buf ++ encodeRecord (.set k v (expiry.map (fun d => now + d))) ∧
     (storageSet st k v expiry now .ok).2.table
        = tableInsert st.table k ⟨v, expiry.map (fun d => now + d)⟩) ∧
    (∀ msg junk,
      (storageSet st k v expiry now (.ioErr msg junk)).1 = .error msg ∧
      (storageSet st k v expiry now (.ioErr msg junk)).2.table = st.table) := by
  constructor
  · by_cases h : 1000 ≤ st.aof.syncCounter + 1 <;>
      simp [storageSet, appendOperation, h]
  · intro msg junk
    simp [storageSet, appendOperation]

/-- Claim C9: a successful `append_operation` extends the log stream by
the 4-byte little-endian length prefix followed by the serialized
payload, as one unit; starting from a counter below 1000, the eager
flush + fsync fires exactly when this append is the 1000th since the
last eager sync, resetting the counter to zero, and otherwise the
counter just increments; the below-1000 invariant is preserved. -/
theorem c9_append_record_eager_sync (st : AofState) (op : Operation)
    (hinv : st.syncCounter < 1000) :
    ((appendOperation st op .ok).2.buf
        = st.buf ++ (u32le (serializeOp op).length ++ serializeOp op)) ∧
    (st.syncCounter + 1 = 1000 →
      (appendOperation st op .ok).2.syncCounter = 0 ∧
      (appendOperation st op .ok).2.syncedLen
        = (appendOperation st op .ok).2.buf.length) ∧
    (st.syncCounter + 1 ≠ 1000 →
      (appendOperation st op .ok).2.syncCounter = st.syncCounter + 1 ∧
      (appendOperation st op .ok).2.syncedLen = st.syncedLen) ∧
    (appendOperation st op .ok).2.syncCounter < 1000 := by
  by_cases h : st.syncCounter + 1 = 1000
  · simp [appendOperation, encodeRecord, h]
  · have h2 : ¬ 1000 ≤ st.syncCounter + 1 := by omega
    simp [appendOperation, encodeRecord, h, h2]
    omega

/-- Claim C9 witness: the 999th-counter state syncs and resets on the
next append; a fresh state just counts to one. -/
theorem c9_witness :
    ((999 : Nat) < 1000) ∧
    ((appendOperation ⟨[], 0, 999⟩ (.delete "k") .ok).2.buf
        = [] ++ (u32le (serializeOp (.delete "k")).length ++ serializeOp (.delete "k"))) ∧
    ((999 : Nat) + 1 = 1000 →
      (appendOperation ⟨[], 0, 999⟩ (.delete "k") .ok).2.syncCounter = 0 ∧
      (appendOperation ⟨[], 0, 999⟩ (.delete "k") .ok).2.syncedLen
        = (appendOperation ⟨[], 0, 999⟩ (.delete "k") .ok).2.buf.length) ∧
    ((999 : Nat) + 1 ≠ 1000 →
      (appendOperation ⟨[], 0, 999⟩ (.delete "k") .ok).2.syncCounter = 999 + 1 ∧
      (appendOperation ⟨[], 0, 999⟩ (.delete "k") .ok).2.syncedLen = 0) ∧
    (appendOperation ⟨[], 0, 999⟩ (.delete "k") .ok).2.syncCounter < 1000 :=
  ⟨by decide, c9_append_record_eager_sync ⟨[], 0, 999⟩ (.delete "k") (by decide)⟩

/-- Claim C7: `execute` yields a reply for every command and never
propagates a failure: `Ping ↦ +PONG`, `Echo m ↦ +m`, `Set` yields `+OK`
on success and the `ERR failed to set value` error reply on a storage
fault; `Get k` yields the bulk value when the key is present and live,
`Null` when absent or expired, and the `Get` match arm turns a storage
fault into the `ERR failed to get value` error reply. -/
theorem c7_execute_infallible_mapping (st : StorageState) (now : Nat) :
    (∀ io, execute .ping st now io = (.simpleString "PONG", st)) ∧
    (∀ io m, execute (.echo m) st now io = (.simpleString m, st)) ∧
    (∀ k v e, (execute (.set k v e) st now .ok).1 = .simpleString "OK") ∧
    (∀ k v e msg junk,
      (execute (.set k v e) st now (.ioErr msg junk)).1
        = .error "ERR failed to set value") ∧
    (∀ io k v, st.table k = some ⟨v, none⟩ →
      (execute (.get k) st now io).1 = .bulkString v) ∧
    (∀ io k v t, st.table k = some ⟨v, some t⟩ → now ≤ t →
      (execute (.get k) st now io).1 = .bulkString v) ∧
    (∀ io k, st.table k = none → (execute (.get k) st now io).1 = .null) ∧
    (∀ io k v t, st.table k = some ⟨v, some t⟩ → t < now →
      (execute (.get k) st now io).1 = .null) ∧
    (∀ e, getReply (.error e) = .error "ERR failed to get value") := by
  refine ⟨fun io => rfl, fun io m => rfl, ?_, ?_, ?_, ?_, ?_, ?_, fun e => rfl⟩
  · intro k v e
    by_cases h : 1000 ≤ st.aof.syncCounter + 1 <;>
      simp [execute, storageSet, appendOperation, h, setReply]
  · intro k v e msg junk
    simp [execute, storageSet, appendOperation, setReply]
  · intro io k v h
    simp [execute, storageGet, h, getReply]
  · intro io k v t h hle
    simp [execute, storageGet, h, Nat.not_lt.mpr hle, getReply]
  · intro io k h
    simp [execute, storageGet, h, getReply]
  · intro io k v t h hlt
    simp [execute, storageGet, h, hlt, getReply]

/-- Claim C7 witness: a table holding `k ↦ ("v", no expiry)`; `GET k`
returns the bulk value, `GET missing` returns `Null`, and the `Get`
fault arm maps to the error reply. -/
theorem c7_witness :
    ((⟨tableInsert emptyTable "k" ⟨"v", none⟩, aofInit⟩ : StorageState).table "k"
        = some ⟨"v", none⟩) ∧
    ((⟨tableInsert emptyTable "k" ⟨"v", none⟩, aofInit⟩ : StorageState).table "m"
        = none) ∧
    (execute .ping ⟨tableInsert emptyTable "k" ⟨"v", none⟩, aofInit⟩ 3 .ok
        = (.simpleString "PONG", ⟨tableInsert emptyTable "k" ⟨"v", none⟩, aofInit⟩)) ∧
    ((execute (.get "k") ⟨tableInsert emptyTable "k" ⟨"v", none⟩, aofInit⟩ 3 .ok).1
        = .bulkString "v") ∧
    ((execute (.get "m") ⟨tableInsert emptyTable "k" ⟨"v", none⟩, aofInit⟩ 3 .ok).1
        = .null) ∧
    getReply (.error "disk on fire") = .error "ERR failed to get value" :=
  ⟨rfl, rfl,
    (c7_execute_infallible_mapping ⟨tableInsert emptyTable "k" ⟨"v", none⟩, aofInit⟩ 3).1 .ok,
    (c7_execute_infallible_mapping ⟨tableInsert emptyTable "k" ⟨"v", none⟩, aofInit⟩ 3).2.2.2.2.1
      .ok "k" "v" rfl,
    (c7_execute_infallible_mapping ⟨tableInsert emptyTable "k" ⟨"v", none⟩, aofInit⟩ 3).2.2.2.2.2.2.1
      .ok "m" rfl,
    (c7_execute_infallible_mapping ⟨tableInsert emptyTable "k" ⟨"v", none⟩, aofInit⟩ 3).2.2.2.2.2.2.2.2
      "disk on fire"⟩

/-- Claim C6 counterexample: `SET` with two arguments — an argument
count other than the claim's four — succeeds as `Set{key, value, no
expiry}` instead of returning a `CommandError`. -/
theorem c6_counterexample :
    fromResp (.array [.bulkString "SET", .bulkString "a", .bulkString "b"])
      = .ok (.set "a" "b" none) := rfl

/-- Claim C6 amended: `SET key value PX ms` (third argument uppercasing
to `PX`, fourth parsing as an unsigned 64-bit decimal integer) yields
`Set` with expiry duration `ms`, which `Storage::set` turns into
`expires_at = now + ms`; `SET key value` (two arguments) yields `Set`
with no expiry; every *other* `SET` argument count, a known-`SET` call
with a bad option or `PX` value, an unknown command name, an empty
request, and a non-array or non-bulk-string request shape each return
the corresponding `CommandError`. -/
theorem c6_set_px_grammar :
    (∀ c k v p m n, strToUpper c = "SET" → strToUpper p = "PX" →
      parseNat64 m.data = some n →
      fromResp (.array [.bulkString c, .bulkString k, .bulkString v,
        .bulkString p, .bulkString m]) = .ok (.set k v (some n))) ∧
    (∀ st k v n now,
      (storageSet st k v (some n) now .ok).2.table k = some ⟨v, some (now + n)⟩) ∧
    (∀ c k v, strToUpper c = "SET" →
      fromResp (.array [.bulkString c, .bulkString k, .bulkString v])
        = .ok (.set k v none)) ∧
    (∀ c args, strToUpper c = "SET" → args.length ≠ 2 → args.length ≠ 4 →
      fromResp (.array (.bulkString c :: args))
        = .error (.command "Wrong number of SET arguments")) ∧
    (∀ c k v p m, strToUpper c = "SET" → strToUpper p ≠ "PX" →
      fromResp (.array [.bulkString c, .bulkString k, .bulkString v,
        .bulkString p, .bulkString m]) = .error (.command "Invalid SET option")) ∧
    (∀ c k v p m, strToUpper c = "SET" → strToUpper p = "PX" →
      parseNat64 m.data = none →
      fromResp (.array [.bulkString c, .bulkString k, .bulkString v,
        .bulkString p, .bulkString m]) = .error (.command "Invalid PX value")) ∧
    (∀ c args, strToUpper c ≠ "PING" → strToUpper c ≠ "ECHO" →
      strToUpper c ≠ "SET" → strToUpper c ≠ "GET" →
      fromResp (.array (.bulkString c :: args))
        = .error (.command ("Unknown command: " ++ strToUpper c))) ∧
    (fromResp (.array []) = .error (.command "Empty command")) ∧
    (∀ s, fromResp (.simpleString s) = .error (.command "Invalid command format")) ∧
    (∀ s, fromResp (.bulkString s) = .error (.command "Invalid command format")) ∧
    (∀ s, fromResp (.error s) = .error (.command "Invalid command format")) ∧
    (fromResp .null = .error (.command "Invalid command format")) ∧
    (∀ s rest, fromResp (.array (.simpleString s :: rest))
        = .error (.command "Invalid command format")) := by
  refine ⟨?_, ?_, ?_, ?_, ?_, ?_, ?_, rfl, fun s => rfl, fun s => rfl,
    fun s => rfl, rfl, fun s rest => rfl⟩
  · intro c k v p m n hc hp hm
    simp [fromResp, hc, hp, hm]
  · intro st k v n now
    by_cases h : 1000 ≤ st.aof.syncCounter + 1 <;>
      simp [storageSet, appendOperation, h, tableInsert]
  · intro c k v hc
    simp [fromResp, hc]
  · intro c args hc h2 h4
    match args with
    | [] => simp [fromResp, hc]
    | [a] => simp [fromResp, hc]
    | [a, b] => simp at h2
    | [a, b, d] => cases a <;> cases b <;> cases d <;> simp [fromResp, hc]
    | [a, b, d, e] => simp at h4
    | a :: b :: d :: e :: f :: rest => cases a <;> cases b <;> simp [fromResp, hc]
  · intro c k v p m hc hp
    simp [fromResp, hc, hp]
  · intro c k v p m hc hp hm
    simp [fromResp, hc, hp, hm]
  · intro c args h1 h2 h3 h4
    cases args with
    | nil => simp [fromResp, h1, h2, h3, h4]
    | cons a rest => cases a <;> simp [fromResp, h1, h2, h3, h4]

/-- Claim C6 amended witness: concrete instances of the `PX` form, the
two-argument form, a three-argument arity error, a bad option, a bad
`PX` value, and an unknown command. -/
theorem c6_witness :
    (strToUpper "set" = "SET" ∧ strToUpper "px" = "PX" ∧
      parseNat64 "1000".data = some 1000 ∧
      fromResp (.array [.bulkString "set", .bulkString "k", .bulkString "v",
        .bulkString "px", .bulkString "1000"]) = .ok (.set "k" "v" (some 1000))) ∧
    ((storageSet ⟨emptyTable, aofInit⟩ "k" "v" (some 1000) 7 .ok).2.table "k"
        = some ⟨"v", some (7 + 1000)⟩) ∧
    (fromResp (.array [.bulkString "set", .bulkString "k", .bulkString "v"])
        = .ok (.set "k" "v" none)) ∧
    (([Resp.bulkString "a"] : List Resp).length ≠ 2 ∧
      ([Resp.bulkString "a"] : List Resp).length ≠ 4 ∧
      fromResp (.array [.bulkString "SET", .bulkString "a"])
        = .error (.command "Wrong number of SET arguments")) ∧
    (strToUpper "EX" ≠ "PX" ∧
      fromResp (.array [.bulkString "SET", .bulkString "k", .bulkString "v",
        .bulkString "EX", .bulkString "10"]) = .error (.command "Invalid SET option")) ∧
    (parseNat64 "-1".data = none ∧
      fromResp (.array [.bulkString "SET", .bulkString "k", .bulkString "v",
        .bulkString "PX", .bulkString "-1"]) = .error (.command "Invalid PX value")) ∧
    (fromResp (.array [.bulkString "FLUSHALL"])
        = .error (.command ("Unknown command: " ++ strToUpper "FLUSHALL"))) :=
  ⟨⟨rfl, rfl, rfl, c6_set_px_grammar.1 "set" "k" "v" "px" "1000" 1000 rfl rfl rfl⟩,
    c6_set_px_grammar.2.1 ⟨emptyTable, aofInit⟩ "k" "v" 1000 7,
    c6_set_px_grammar.2.2.1 "set" "k" "v" rfl,
    ⟨by decide, by decide,
      c6_set_px_grammar.2.2.2.1 "SET" [.bulkString "a"] rfl (by decide) (by decide)⟩,
    ⟨by decide, c6_set_px_grammar.2.2.2.2.1 "SET" "k" "v" "EX" "10" rfl (by decide)⟩,
    ⟨rfl, c6_set_px_grammar.2.2.2.2.2.1 "SET" "k" "v" "PX" "-1" rfl rfl rfl⟩,
    c6_set_px_grammar.2.2.2.2.2.2.1 "FLUSHALL" [] (by decide) (by decide) (by decide)
      (by decide)⟩

/-- Claim C4 counterexample: the buffer `*1\r\n$abc\r\nhi\r\n` has a
bulk-string length prefix (`abc`) that is not a valid number, yet
`parse` returns a request instead of a `ProtocolError` — the declared
bulk length is never examined. -/
theorem c4_counterexample :
    respParse [42, 49, 13, 10, 36, 97, 98, 99, 13, 10, 104, 105, 13, 10]
      = .ok (some (.array [.bulkString "hi"])) := rfl

/-- Claim C4 amended: `parse` returns nothing exactly on the empty
buffer, and fails with a `ProtocolError` on a non-`*` top-level byte,
invalid UTF-8, an unparsable array count, a truncated array or bulk
string, and an element not starting with `$` — but the bulk-string
length digits after a `$` are never validated: any `$`-line is accepted
and the following line is taken verbatim as the element. -/
theorem c4_parse_error_cases :
    (∀ l, respParse l = .ok none ↔ l = []) ∧
    (∀ b rest, b ≠ 42 →
      respParse (b :: rest) = .error (.protocol "Unsupported RESP type")) ∧
    (∀ rest, utf8Decode (42 :: rest) = none →
      respParse (42 :: rest) = .error (.protocol "Invalid UTF-8")) ∧
    (∀ rest cs, utf8Decode (42 :: rest) = some cs →
      parseNat64 ((splitCRLF1 cs).1.drop 1) = none →
      respParse (42 :: rest) = .error (.protocol "Invalid array length")) ∧
    (∀ n, parseElems (n + 1) [] = .error (.protocol "Incomplete array")) ∧
    (∀ n rest, parseElems (n + 1) ['$' :: rest]
        = .error (.protocol "Incomplete bulk string")) ∧
    (∀ n line rest, line.head? ≠ some '$' →
      parseElems (n + 1) (line :: rest)
        = .error (.protocol "Invalid array element")) ∧
    (∀ n lenRest content rest,
      parseElems (n + 1) (('$' :: lenRest) :: content :: rest)
        = match parseElems n rest with
          | .ok arr => .ok (.bulkString (String.mk content) :: arr)
          | .error e => .error e) := by
  refine ⟨?_, ?_, ?_, ?_, fun n => rfl, fun n rest => rfl, ?_, fun n l c r => rfl⟩
  · intro l
    constructor
    · intro h
      cases l with
      | nil => rfl
      | cons b rest =>
          exfalso
          by_cases hb : b = 42
          · subst hb
            simp only [respParse, if_pos rfl] at h
            rcases h1 : utf8Decode (42 :: rest) with _ | cs <;> rw [h1] at h
            · simp at h
            · rcases h2 : parseNat64 ((splitCRLF1 cs).1.drop 1) with _ | count <;>
                simp only [h2] at h
              · simp at h
              · rcases h3 : parseElems count (splitCRLF1 cs).2 with e | arr <;>
                  simp only [h3] at h <;> simp at h
          · simp [respParse, hb] at h
    · intro h; subst h; rfl
  · intro b rest hb
    simp [respParse, hb]
  · intro rest h
    simp [respParse, h]
  · intro rest cs h1 h2
    rw [List.drop_one] at h2
    simp [respParse, h1, h2]
  · intro n line rest h
    match line with
    | [] => rfl
    | c :: cs =>
        simp only [List.head?] at h
        have hc : c ≠ '$' := by intro he; exact h (by rw [he])
        simp only [parseElems]
        split
        · rename_i tail heq
          injection heq with hch htl
          exact absurd hch hc
        · rfl

/-- Claim C4 amended witness: the empty buffer decodes to nothing, a
`+`-led buffer is an unsupported type, byte `0xFF` after `*` is invalid
UTF-8, `*x` is an invalid array length, and a missing element line is an
incomplete array. -/
theorem c4_witness :
    (respParse [] = .ok none ↔ ([] : List Nat) = []) ∧
    ((43 : Nat) ≠ 42 ∧
      respParse [43, 79, 75, 13, 10] = .error (.protocol "Unsupported RESP type")) ∧
    (utf8Decode [42, 255] = none ∧
      respParse [42, 255] = .error (.protocol "Invalid UTF-8")) ∧
    (utf8Decode [42, 120, 13, 10] = some ['*', 'x', '\r', '\n'] ∧
      parseNat64 ((splitCRLF1 ['*', 'x', '\r', '\n']).1.drop 1) = none ∧
      respParse [42, 120, 13, 10] = .error (.protocol "Invalid array length")) ∧
    parseElems 1 [] = .error (.protocol "Incomplete array") :=
  ⟨c4_parse_error_cases.1 [],
    ⟨by decide, c4_parse_error_cases.2.1 43 [79, 75, 13, 10] (by decide)⟩,
    ⟨rfl, c4_parse_error_cases.2.2.1 [255] rfl⟩,
    ⟨rfl, rfl, c4_parse_error_cases.2.2.2.1 [120, 13, 10] ['*', 'x', '\r', '\n'] rfl rfl⟩,
    c4_parse_error_cases.2.2.2.2.1 0⟩

theorem decU32le_short (l : List Nat) (h : l.length < 4) : decU32le l = none := by
  match l with
  | [] => rfl
  | [_] => rfl
  | [_, _] => rfl
  | [_, _, _] => rfl
  | _ :: _ :: _ :: _ :: _ => exact absurd h (by simp)

theorem decU32le_u32le (n : Nat) (r : List Nat) (h : n < 4294967296) :
    decU32le (u32le n ++ r) = some (n, r) := by
  simp only [u32le, List.cons_append, List.nil_append, decU32le,
    Option.some.injEq, Prod.mk.injEq]
  exact ⟨by omega, trivial⟩

theorem loadOps_stop (l : List Nat) (acc : List Operation)
    (h : decU32le l = none) : loadOps l acc = .ok acc.reverse := by
  rw [loadOps.eq_def]
  split
  · rfl
  · rename_i len rest heq
    rw [h] at heq
    cases heq

theorem loadOps_step (l : List Nat) (acc : List Operation) (len : Nat)
    (rest : List Nat) (h : decU32le l = some (len, rest))
    (hlen : len ≤ rest.length) (op : Operation)
    (hop : deserializeOp (rest.take len) = some op) :
    loadOps l acc = loadOps (rest.drop len) (op :: acc) := by
  rw [loadOps.eq_def]
  split
  · rename_i heq
    rw [h] at heq; cases heq
  · rename_i len2 rest2 heq
    rw [h] at heq
    injection heq with heq2
    injection heq2 with hl hr
    subst hl; subst hr
    rw [dif_neg (by omega)]
    rw [hop]

theorem loadOps_encodeLog (ops : List Operation) (acc : List Operation)
    (tail : List Nat) (htail : tail.length < 4)
    (hlen : ∀ op ∈ ops, (serializeOp op).length < 4294967296) :
    loadOps (encodeLog ops ++ tail) acc = .ok (acc.reverse ++ ops) := by
  induction ops generalizing acc with
  | nil =>
      have h0 : encodeLog ([] : List Operation) ++ tail = tail := by
        simp [encodeLog]
      rw [h0, loadOps_stop tail acc (decU32le_short tail htail)]
      simp
  | cons op ops ih =>
      have hop : (serializeOp op).length < 4294967296 := hlen op (by simp)
      have heq : encodeLog (op :: ops) ++ tail
          = u32le (serializeOp op).length
              ++ (serializeOp op ++ (encodeLog ops ++ tail)) := by
        simp [encodeLog, encodeRecord, List.append_assoc]
      have htk : (serializeOp op ++ (encodeLog ops ++ tail)).take
          (serializeOp op).length = serializeOp op :=
        List.take_left _ _
      have hdr : (serializeOp op ++ (encodeLog ops ++ tail)).drop
          (serializeOp op).length = encodeLog ops ++ tail :=
        List.drop_left _ _
      rw [heq, loadOps_step _ acc (serializeOp op).length _
        (decU32le_u32le _ _ hop) (by simp) op
        (by rw [htk]; exact deserializeOp_serializeOp_nil op), hdr,
        ih (op :: acc) (fun o ho => hlen o (List.mem_cons_of_mem _ ho))]
      simp

/-- Claim C2 counterexample: a log whose final (and only) record has a
complete 4-byte length prefix declaring 2 payload bytes but only 1
present.  The claim demands `load_operations` return the empty sequence
of preceding complete records successfully; the code instead propagates
the `read_exact` failure as an error. -/
theorem c2_counterexample :
    loadOperations [2, 0, 0, 0, 0] = .error "failed to fill whole buffer" := by
  simp [loadOperations, loadOps, decU32le]

/-- Claim C2 amended: replay stops successfully, returning exactly the
complete records, only when the trailing truncation falls inside the
4-byte length prefix (fewer than 4 bytes remain); a length prefix
followed by fewer payload bytes than it declares is an error, not a
graceful stop.  (The side condition keeps each record's length within
the `u32` cast of the writer.) -/
theorem c2_load_stops_at_truncated_header (ops : List Operation)
    (tail : List Nat) (htail : tail.length < 4)
    (hlen : ∀ op ∈ ops, (serializeOp op).length < 4294967296) :
    loadOperations (encodeLog ops ++ tail) = .ok ops := by
  have h := loadOps_encodeLog ops [] tail htail hlen
  simpa [loadOperations] using h

/-- Claim C2 amended witness: one complete `Set` record followed by a
3-byte truncated length prefix replays to exactly that record. -/
theorem c2_witness :
    (([9, 9, 9] : List Nat).length < 4) ∧
    (∀ op ∈ [Operation.set "k" "v" none], (serializeOp op).length < 4294967296) ∧
    loadOperations (encodeLog [Operation.set "k" "v" none] ++ [9, 9, 9])
      = .ok [Operation.set "k" "v" none] :=
  ⟨by decide, by decide,
    c2_load_stops_at_truncated_header [Operation.set "k" "v" none]
      [9, 9, 9] (by decide) (by decide)⟩

/-! ### Claim C3: replay versus live application -/

/-- The key an operation concerns. -/
def opKey : Operation → String
  | .set k _ _ => k
  | .delete k => k

/-- Is the last log record for key `k` (if any) something other than a
`Set` whose expiry has already elapsed at replay time `now`?  This is
the exact condition under which replay agrees with live-minus-expired at
`k`. -/
def lastSetLive (now : Nat) (k : String) (ops : List Operation) : Bool :=
  match (ops.filter (fun op => opKey op == k)).getLast? with
  | some (.set _ _ e) => notExpired now e
  | _ => true

theorem lastSetLive_append_other (now : Nat) (k : String)
    (l : List Operation) (op : Operation) (hk : opKey op ≠ k) :
    lastSetLive now k (l ++ [op]) = lastSetLive now k l := by
  unfold lastSetLive
  rw [List.filter_append]
  have h : List.filter (fun o => opKey o == k) [op] = [] := by
    have hb : (opKey op == k) = false := beq_eq_false_iff_ne.mpr hk
    simp [List.filter, hb]
  rw [h, List.append_nil]

theorem lastSetLive_append_set_self (now : Nat) (k : String)
    (l : List Operation) (v : String) (e : Option Nat) :
    lastSetLive now k (l ++ [.set k v e]) = notExpired now e := by
  unfold lastSetLive
  rw [List.filter_append]
  have h : List.filter (fun o => opKey o == k) [Operation.set k v e]
      = [Operation.set k v e] := by
    simp [List.filter, opKey]
  rw [h, List.getLast?_concat]

/-- Claim C3 counterexample: replaying `[Set k v1 (no expiry), Set k v2
(expires 0)]` at time 1 leaves the stale `v1` in the table, while live
application followed by dropping elapsed entries leaves `k` absent —
the expired later record did not overwrite the earlier one. -/
theorem c3_counterexample :
    replayOps 1 [.set "k" "v1" none, .set "k" "v2" (some 0)] "k"
      = some ⟨"v1", none⟩ ∧
    minusExpired 1 (liveOps [.set "k" "v1" none, .set "k" "v2" (some 0)]) "k"
      = none :=
  ⟨rfl, rfl⟩

/-- Claim C3 amended: startup replay folds the records in order, with a
later record overwriting earlier ones for its key — except that a `Set`
whose expiry has already elapsed at replay time is skipped, leaving any
earlier entry for that key in place.  Consequently, at every key whose
last record is not such an expired `Set`, the replayed table equals the
live-application table minus the entries whose expiry has elapsed. -/
theorem c3_replay_agrees_unless_last_set_expired (now : Nat) (k : String)
    (ops : List Operation) (h : lastSetLive now k ops = true) :
    replayOps now ops k = minusExpired now (liveOps ops) k := by
  induction ops using List.reverseRecOn with
  | nil => rfl
  | append_singleton l op ih =>
      have hR : replayOps now (l ++ [op]) = replayStep now (replayOps now l) op := by
        simp [replayOps, List.foldl_append]
      have hL : liveOps (l ++ [op]) = liveStep (liveOps l) op := by
        simp [liveOps, List.foldl_append]
      rw [hR, hL]
      cases op with
      | delete k2 =>
          by_cases hk : k = k2
          · subst hk
            simp [replayStep, liveStep, tableRemove, minusExpired]
          · have hk2 : opKey (.delete k2) ≠ k := by
              simp [opKey]
              exact Ne.symm hk
            have ih2 := ih (by rw [← lastSetLive_append_other now k l _ hk2]; exact h)
            simpa [replayStep, liveStep, tableRemove, minusExpired, hk] using ih2
      | set k2 v e =>
          by_cases hk : k = k2
          · subst hk
            rw [lastSetLive_append_set_self now k l v e] at h
            simp [replayStep, liveStep, h, tableInsert, minusExpired]
          · have hk2 : opKey (.set k2 v e) ≠ k := by
              simp [opKey]
              exact Ne.symm hk
            have ih2 := ih (by rw [← lastSetLive_append_other now k l _ hk2]; exact h)
            by_cases hne : notExpired now e = true
            · simpa [replayStep, liveStep, hne, tableInsert, minusExpired, hk] using ih2
            · simpa [replayStep, liveStep, hne, tableInsert, minusExpired, hk] using ih2

/-- Claim C3 amended witness: a two-record log for key `a` whose last
record is a still-live `Set` replays to exactly the live-minus-expired
state at `a`. -/
theorem c3_witness :
    lastSetLive 1 "a" [.set "a" "x" none, .set "a" "y" (some 5)] = true ∧
    replayOps 1 [.set "a" "x" none, .set "a" "y" (some 5)] "a"
      = minusExpired 1 (liveOps [.set "a" "x" none, .set "a" "y" (some 5)]) "a" :=
  ⟨rfl, c3_replay_agrees_unless_last_set_expired 1 "a"
    [.set "a" "x" none, .set "a" "y" (some 5)] rfl⟩

end RedisLike
